import Mathlib

/-!
Verification of the gtft-crawler concurrent fetch-dispatch pipeline.

This file gives a shallow embedding, in Lean 4, of the parts of the Go
source that the specification's testable properties talk about:

* `internal/worker/types.go` — `Task`, `TaskStatus`, `Result`, `Stats`;
* `internal/worker/pool.go`  — `updateStats`, `extractIDFromURL`, the
  worker / task-generator / `Stop` interaction (as a small-step transition
  system `PStep` over `PoolState`);
* `internal/fetcher/fetcher.go` — `Fetch` (retry loop, 403/404 break,
  attempt accounting, backoff sleeps) and `backoffDuration` (modelled on
  int64 with two's-complement wraparound, since the shift and the
  multiplication by `time.Second` are 64-bit operations in Go).

Machine integers: `time.Duration` is int64 nanoseconds.  Where every value
in play is nonnegative (durations, counters) the embedding uses `Nat`, and
Go's truncated int64 division coincides with `Nat.div`.  Where wraparound
is observable (`backoffDuration`) the embedding uses `Int` with an explicit
`wrap64`.  Go `float64` fields (`SuccessRate`) are modelled as `ℚ`: the
claims under check compare which arithmetic expression is computed, and
the compared expressions are identical term-for-term, so IEEE rounding
cannot distinguish them.

Wall-clock reads (`time.Now`, `time.Since`) enter `updateStats` as explicit
parameters `elapsed` and `now`.
-/

namespace Crawler

set_option maxRecDepth 100000

/-! ## Data model (internal/worker/types.go) -/

/-- Embeds `TaskStatus` with its five constants
`TaskPending, TaskProcessing, TaskCompleted, TaskFailed, TaskSkipped`. -/
inductive TaskStatus
  | pending
  | processing
  | completed
  | failed
  | skipped
deriving DecidableEq, Repr

/-- URLs and extracted ids are byte strings in Go; the embedding uses
`List Char` (all URLs in play are ASCII, so bytes and chars coincide). -/
abbrev Url := List Char

/-- Embeds `worker.Task`.  The `Created time.Time` field is a wall-clock
stamp that no checked claim reads, so it is omitted. -/
structure Task where
  id : Url
  url : Url
  attempts : Nat
  status : TaskStatus
deriving DecidableEq, Repr

/-- Error classes that `main`'s processFunc can put into `Result.Error`
(fetch failure surfaced via `FetchResult.Error`, parse failure, or a panic
recovered by the worker's deferred handler).  `updateStats` only tests the
error for nil-ness, so the payload carried is irrelevant to the claims. -/
inductive PoolErr
  | fetchFailed
  | parseFailed
  | panicked
deriving DecidableEq, Repr

/-- Embeds `worker.Result`.  The `Data any` payload is not read by any
checked claim and is omitted; `Time` is nanoseconds. -/
structure Result where
  task : Task
  error : Option PoolErr
  time : Nat
deriving DecidableEq, Repr

/-- Embeds `worker.Stats`.  `SuccessRate float64` is modelled as `ℚ`;
`AvgTime`, `StartTime` are nanosecond counts; `ETA` is `Int` because the
Go expression `Total - completed` is a plain `int` subtraction. -/
structure Stats where
  total : Nat
  completed : Nat
  failed : Nat
  skipped : Nat
  successRate : ℚ
  avgTime : Nat
  startTime : Nat
  eta : Int
deriving DecidableEq, Repr

/-- Embeds `worker.NewTask`: status starts at `TaskPending`, attempts at
the zero value 0. -/
def NewTask (id url : Url) : Task :=
  { id := id, url := url, attempts := 0, status := TaskStatus.pending }

/-! ## updateStats (pool.go lines 209-230)

Go passes `result Result` to `updateStats` **by value**.  The body assigns
`result.Task.Status = TaskFailed / TaskCompleted`, but that assignment hits
the local copy, which is discarded when `updateStats` returns.  To keep the
embedding faithful, `updateStatsImpl` returns both the new `Stats` and the
mutated local copy; `updateStats` — what the caller actually observes —
keeps only the `Stats` component, exactly as Go does. -/

/-- Embeds the body of `WorkerPool.updateStats`, statement for statement:
the incremental mean (computed from the counts **before** the increment),
the increment of `Failed`/`Completed` and the terminal-status write to the
local copy of the result, then the success-rate and ETA recomputation
guarded by `completed > 0`.  `elapsed` stands for `time.Since(StartTime)`
and `now` for `time.Now()`. -/
def updateStatsImpl (s : Stats) (r : Result) (elapsed now : Nat) : Stats × Result :=
  let n := s.completed + s.failed
  let s1 := { s with avgTime := (s.avgTime * n + r.time) / (n + 1) }
  let step2 : Stats × Result :=
    match r.error with
    | some _ => ({ s1 with failed := s1.failed + 1 },
                 { r with task := { r.task with status := TaskStatus.failed } })
    | none   => ({ s1 with completed := s1.completed + 1 },
                 { r with task := { r.task with status := TaskStatus.completed } })
  let s2 := step2.1
  let c := s2.completed + s2.failed
  let s3 :=
    if 0 < c then
      { s2 with
        successRate := (s2.completed : ℚ) / (c : ℚ) * 100,
        eta := (now : Int) + ((elapsed / c : Nat) : Int) * ((s2.total : Int) - (c : Int)) }
    else s2
  (s3, step2.2)

/-- The effect of `updateStats` visible to its caller: only the shared
`Stats` change; the by-value `Result` copy is discarded. -/
def updateStats (s : Stats) (r : Result) (elapsed now : Nat) : Stats :=
  (updateStatsImpl s r elapsed now).1

/-- One `updateStats` call increments exactly one of `Completed`/`Failed`. -/
theorem updateStats_counts (s : Stats) (r : Result) (elapsed now : Nat) :
    (updateStats s r elapsed now).completed + (updateStats s r elapsed now).failed
      = s.completed + s.failed + 1 := by
  unfold updateStats updateStatsImpl
  cases r.error <;> simp <;> omega

/-- `updateStats` never touches `Total`. -/
theorem updateStats_total (s : Stats) (r : Result) (elapsed now : Nat) :
    (updateStats s r elapsed now).total = s.total := by
  unfold updateStats updateStatsImpl
  cases r.error <;> simp

/-- `updateStats` never touches `Skipped` (no statement in the pool
increments it). -/
theorem updateStats_skipped (s : Stats) (r : Result) (elapsed now : Nat) :
    (updateStats s r elapsed now).skipped = s.skipped := by
  unfold updateStats updateStatsImpl
  cases r.error <;> simp

/-- C6: after `updateStats` processes one Result, with `n = completed + failed`
taken before the call and `oldAvg` the previous average, the new average
equals `(oldAvg × n + newDuration) / (n + 1)` (Go's truncated int64 division
= `Nat.div` here), and the new success rate equals
`completed / (completed + failed) × 100` over the post-call counts; the
denominator is never zero after a call, so the guarded "not computed"
branch of the code is exactly the spec's "undefined when zero" case. -/
theorem c6_updateStats_formulas (s : Stats) (r : Result) (elapsed now : Nat) :
    (updateStats s r elapsed now).avgTime
        = (s.avgTime * (s.completed + s.failed) + r.time) / (s.completed + s.failed + 1)
    ∧ (updateStats s r elapsed now).completed + (updateStats s r elapsed now).failed
        = s.completed + s.failed + 1
    ∧ 0 < (updateStats s r elapsed now).completed + (updateStats s r elapsed now).failed
    ∧ (updateStats s r elapsed now).successRate
        = ((updateStats s r elapsed now).completed : ℚ)
            / (((updateStats s r elapsed now).completed : ℚ)
                + ((updateStats s r elapsed now).failed : ℚ)) * 100 := by
  unfold updateStats updateStatsImpl
  cases r.error <;>
    refine ⟨?_, ?_, ?_, ?_⟩ <;>
    simp <;>
    omega

/-! ## Task id extraction (pool.go lines 287-305, `extractIDFromURL`)

`strings.LastIndex(s, pat)` returns the byte index of the last occurrence
of `pat` in `s`, or -1.  The embedding searches indices `s.length` down to
0 and returns `Option Nat`. -/

/-- Whether `pat` occurs in `s` starting at index `i`
(`s[i : i+len(pat)] == pat`). -/
def matchAt (s pat : Url) (i : Nat) : Bool :=
  (s.drop i).take pat.length == pat

/-- Largest `i ≤ n` with `P i`, scanning downward (the search order of
`strings.LastIndex`). -/
def findLastFrom (P : Nat → Bool) : Nat → Option Nat
  | 0 => if P 0 then some 0 else none
  | n + 1 => if P (n + 1) then some (n + 1) else findLastFrom P n

/-- Embeds `strings.LastIndex(s, pat)`: index of the last occurrence,
`none` for Go's -1. -/
def lastIndex (s pat : Url) : Option Nat :=
  findLastFrom (matchAt s pat) s.length

/-- The literal `"/article/id/"` from pool.go line 294. -/
def idPat : Url := "/article/id/".toList

/-- The literal `"/article/doi/"` from pool.go line 299. -/
def doiPat : Url := "/article/doi/".toList

/-- Embeds `extractIDFromURL`: try the `/article/id/` pattern, then the
`/article/doi/` pattern, else fall back to the URL itself; on a match the
id is everything after the **last** occurrence of the pattern. -/
def extractIDFromURL (url : Url) : Url :=
  match lastIndex url idPat with
  | some idx => url.drop (idx + idPat.length)
  | none =>
    match lastIndex url doiPat with
    | some idx => url.drop (idx + doiPat.length)
    | none => url

theorem findLastFrom_eq_some {P : Nat → Bool} {n i : Nat}
    (h : findLastFrom P n = some i) :
    P i = true ∧ i ≤ n ∧ ∀ j, i < j → j ≤ n → P j = false := by
  induction n with
  | zero =>
    unfold findLastFrom at h
    by_cases h0 : P 0 = true
    · simp [h0] at h
      subst h
      exact ⟨h0, le_refl 0, by omega⟩
    · simp [Bool.not_eq_true] at h0
      simp [h0] at h
  | succ n ih =>
    unfold findLastFrom at h
    by_cases hn : P (n + 1) = true
    · simp [hn] at h
      subst h
      exact ⟨hn, le_refl _, by omega⟩
    · simp [Bool.not_eq_true] at hn
      simp [hn] at h
      obtain ⟨h1, h2, h3⟩ := ih h
      refine ⟨h1, Nat.le_succ_of_le h2, ?_⟩
      intro j hij hj
      rcases Nat.lt_or_ge j (n + 1) with hlt | hge
      · exact h3 j hij (by omega)
      · have : j = n + 1 := by omega
        subst this
        exact hn

theorem findLastFrom_eq_none {P : Nat → Bool} {n : Nat}
    (h : findLastFrom P n = none) :
    ∀ j, j ≤ n → P j = false := by
  induction n with
  | zero =>
    unfold findLastFrom at h
    by_cases h0 : P 0 = true
    · simp [h0] at h
    · simp [Bool.not_eq_true] at h0
      intro j hj
      have : j = 0 := by omega
      subst this
      exact h0
  | succ n ih =>
    unfold findLastFrom at h
    by_cases hn : P (n + 1) = true
    · simp [hn] at h
    · simp [Bool.not_eq_true] at hn
      simp [hn] at h
      intro j hj
      rcases Nat.lt_or_ge j (n + 1) with hlt | hge
      · exact ih h j (by omega)
      · have : j = n + 1 := by omega
        subst this
        exact hn

/-- A match of a nonempty pattern at `i` needs `i + pat.length ≤ s.length`. -/
theorem matchAt_length {s pat : Url} {i : Nat} (hpat : pat ≠ [])
    (h : matchAt s pat i = true) :
    i + pat.length ≤ s.length := by
  unfold matchAt at h
  have he : (s.drop i).take pat.length = pat := eq_of_beq h
  have hlen := congrArg List.length he
  rw [List.length_take, List.length_drop] at hlen
  have hplen : 0 < pat.length := List.length_pos.mpr hpat
  omega

/-- Matching inside a suffix is matching at a shifted index. -/
theorem matchAt_drop (s pat : Url) (m j : Nat) :
    matchAt (s.drop m) pat j = matchAt s pat (m + j) := by
  unfold matchAt
  rw [List.drop_drop]

/-- If a nonempty `pat` occurs nowhere in `s`, it occurs nowhere in any
suffix of `s`. -/
theorem lastIndex_drop_none {s pat : Url} (hpat : pat ≠ [])
    (h : lastIndex s pat = none) (m : Nat) :
    lastIndex (s.drop m) pat = none := by
  unfold lastIndex at h ⊢
  cases hfind : findLastFrom (matchAt (s.drop m) pat) (s.drop m).length with
  | none => rfl
  | some i =>
    obtain ⟨hP, hle, _⟩ := findLastFrom_eq_some hfind
    rw [matchAt_drop] at hP
    have hcontra := findLastFrom_eq_none h (m + i) (by
      have := matchAt_length hpat hP
      omega)
    rw [hP] at hcontra
    exact absurd hcontra (by simp)

/-- After taking the suffix that follows the *last* occurrence of a
nonempty `pat`, no occurrence of `pat` remains. -/
theorem lastIndex_after_last {s pat : Url} {i : Nat}
    (hpat : pat ≠ []) (h : lastIndex s pat = some i) :
    lastIndex (s.drop (i + pat.length)) pat = none := by
  unfold lastIndex at h ⊢
  obtain ⟨hP, hle, hmax⟩ := findLastFrom_eq_some h
  cases hfind : findLastFrom (matchAt (s.drop (i + pat.length)) pat)
      (s.drop (i + pat.length)).length with
  | none => rfl
  | some j =>
    obtain ⟨hPj, hjle, _⟩ := findLastFrom_eq_some hfind
    rw [matchAt_drop] at hPj
    have hplen : 0 < pat.length := List.length_pos.mpr hpat
    have hbound := matchAt_length hpat hPj
    have hcontra := hmax (i + pat.length + j) (by omega) (by omega)
    rw [hPj] at hcontra
    exact absurd hcontra (by simp)

/-- The extracted id never contains the `/article/id/` pattern: on the id
branch it is the suffix after the last occurrence, on the other branches
the whole string was already free of it. -/
theorem extract_no_idPat (url : Url) :
    lastIndex (extractIDFromURL url) idPat = none := by
  unfold extractIDFromURL
  cases hid : lastIndex url idPat with
  | some i =>
    simp only []
    exact lastIndex_after_last (by decide) hid
  | none =>
    cases hdoi : lastIndex url doiPat with
    | some i =>
      simp only []
      exact lastIndex_drop_none (by decide) hid _
    | none => simpa using hid

/-- C9 (amended): task id extraction is deterministic, and idempotent for
every URL whose extracted id does not itself contain the `/article/doi/`
pattern (on every URL the extracted id already contains no `/article/id/`
occurrence, by `extract_no_idPat`); a URL containing `.../article/id/{token}`
maps to `{token}` (the suffix after the last occurrence, the id pattern
taking precedence over the doi pattern), a URL containing
`.../article/doi/{token}` and no id pattern maps to `{token}`, and a URL
matching neither pattern maps to itself. -/
theorem c9_extract_amended :
    (∀ u v : Url, u = v → extractIDFromURL u = extractIDFromURL v)
    ∧ (∀ u : Url, lastIndex (extractIDFromURL u) doiPat = none →
        extractIDFromURL (extractIDFromURL u) = extractIDFromURL u)
    ∧ extractIDFromURL ("https://www.gtft.cn/article/id/abc-123".toList) = "abc-123".toList
    ∧ extractIDFromURL ("https://www.gtft.cn/cn/article/doi/10.77/x.1".toList)
        = "10.77/x.1".toList
    ∧ extractIDFromURL ("https://example.com/foo".toList) = "https://example.com/foo".toList := by
  have key : ∀ w : Url, lastIndex w idPat = none → lastIndex w doiPat = none →
      extractIDFromURL w = w := by
    intro w h1 h2
    unfold extractIDFromURL
    rw [h1, h2]
  exact ⟨fun u v h => by rw [h],
         fun u hdoi => key _ (extract_no_idPat u) hdoi,
         by decide, by decide, by decide⟩

/-- Closed instance of the amended C9: re-extracting the id of
`https://www.gtft.cn/article/id/abc-123` leaves it unchanged. -/
theorem c9_extract_amended_witness :
    extractIDFromURL (extractIDFromURL ("https://www.gtft.cn/article/id/abc-123".toList))
      = extractIDFromURL ("https://www.gtft.cn/article/id/abc-123".toList) :=
  c9_extract_amended.2.1 _ (by decide)

/-- C9 counterexample: extraction is **not** idempotent as claimed.  For
`https://www.gtft.cn/article/id/foo/article/doi/10.1/x` the first
extraction returns `foo/article/doi/10.1/x` (id branch), and extracting
that again returns `10.1/x` (doi branch). -/
theorem c9_idem_counterexample :
    extractIDFromURL
        (extractIDFromURL ("https://www.gtft.cn/article/id/foo/article/doi/10.1/x".toList))
      ≠ extractIDFromURL ("https://www.gtft.cn/article/id/foo/article/doi/10.1/x".toList) := by
  decide

/-! ## Backoff (fetcher.go lines 129-139, `backoffDuration`)

`time.Duration(1 << uint(attempt-1)) * time.Second` is evaluated entirely
in int64: the untyped 1 adopts the target type `time.Duration`, the shift
keeps only the low 64 bits (a shift count ≥ 64 yields 0), and the
multiplication by `time.Second = 10^9` wraps on overflow.  The comparison
with `30 * time.Second` is a signed comparison. -/

/-- Interpret an integer as a 64-bit two's-complement value. -/
def wrap64 (x : Int) : Int := (x + 2 ^ 63).emod (2 ^ 64) - 2 ^ 63

/-- Go `1 << n` on int64: zero once every set bit is shifted out. -/
def shlOne64 (n : Nat) : Int := if 64 ≤ n then 0 else wrap64 (2 ^ n)

/-- Embeds `Fetcher.backoffDuration` (nanoseconds).  `uint(attempt-1)`
wraps to `2^64 - 1` for `attempt = 0`; the fetch loop only passes
`attempt ≥ 1`. -/
def backoffDuration (attempt : Nat) : Int :=
  let sh : Nat := if attempt = 0 then 2 ^ 64 - 1 else attempt - 1
  let backoff := wrap64 (shlOne64 sh * 1000000000)
  if 30 * 1000000000 < backoff then 30 * 1000000000 else backoff

/-- C7 (amended): for attempts `1 ≤ k ≤ 34` — those whose backoff
`2^(k-1)` seconds fits in int64 nanoseconds — the backoff equals
`min(2^(k-1), 30)` seconds and is monotonically non-decreasing in `k`.
Beyond `k = 34` the int64 multiplication by `time.Second` overflows and
both parts of the claim fail (see the counterexample). -/
theorem c7_backoff_amended :
    (∀ k : Nat, 1 ≤ k → k ≤ 34 →
      backoffDuration k = (min ((2 : Int) ^ (k - 1)) 30) * 1000000000)
    ∧ (∀ j k : Nat, 1 ≤ j → j ≤ k → k ≤ 34 →
      backoffDuration j ≤ backoffDuration k) := by
  have h1 : ∀ k, k < 35 → 1 ≤ k →
      backoffDuration k = (min ((2 : Int) ^ (k - 1)) 30) * 1000000000 := by decide
  have h2 : ∀ j, j < 35 → ∀ k, k < 35 → 1 ≤ j → j ≤ k →
      backoffDuration j ≤ backoffDuration k := by decide
  exact ⟨fun k hk1 hk2 => h1 k (by omega) hk1,
         fun j k hj hjk hk => h2 j (by omega) k (by omega) hj hjk⟩

/-- Closed instance of the amended C7 at attempts 2 and 3. -/
theorem c7_backoff_amended_witness :
    backoffDuration 3 = (min ((2 : Int) ^ (3 - 1)) 30) * 1000000000
    ∧ backoffDuration 2 ≤ backoffDuration 3 :=
  ⟨c7_backoff_amended.1 3 (by decide) (by decide),
   c7_backoff_amended.2 2 3 (by decide) (by decide) (by decide)⟩

/-- C7 counterexample: at attempt 35 the int64 product
`2^34 * 10^9` wraps to a negative duration, so the backoff is neither
`min(2^34, 30) = 30` seconds nor monotone past attempt 34; at attempt 65
the shift itself is 0 and the computed backoff is 0 seconds. -/
theorem c7_overflow_counterexample :
    backoffDuration 35 = -1266874889709551616
    ∧ (min ((2 : Int) ^ (35 - 1)) 30) * 1000000000 = 30000000000
    ∧ backoffDuration 35 < backoffDuration 34
    ∧ backoffDuration 65 = 0 := by decide

/-! ## Fetcher.Fetch (fetcher.go lines 47-127)

The network environment is abstracted as a function from the attempt
number to that attempt's outcome: request construction fails, the HTTP
round-trip fails, reading the body fails, or a response with some status
code arrives.  The loop body handles exactly these four cases.

Go control flow captured here:
* `for attempts = 1; attempts <= maxRetries; attempts++`;
* every retryable failure sets `lastError`, runs
  `time.Sleep(backoffDuration(attempts))`, and continues;
* a 404 or 403 sets `lastError` and `break`s — leaving the loop with
  `attempts` **unchanged** — so the post-loop `Attempts: attempts - 1`
  undercounts by one on this path;
* a status < 400 returns `{StatusCode, Attempts: attempts, Error: nil}`
  immediately;
* normal exhaustion leaves `attempts = maxRetries + 1`, and
  `Attempts: attempts - 1 = maxRetries`;
* **both** `return` statements return a non-nil `*FetchResult` and a nil
  `error`.

`time.Sleep` takes only a duration; the fetch context `ctx` (a
`context.WithTimeout` scope) is not consulted during the sleep, so the
embedding records each executed sleep's full duration in a trace.  The
`fuel` argument makes the recursion structural; `maxRetries + 1 - attempt`
units always suffice, and `Fetch` passes `maxRetries + 1` at
`attempt = 1`, so the fuel-exhaustion branch is unreachable (it is given
the same value as the loop-exhaustion branch). -/

/-- Outcome of one attempt, as decided by the environment. -/
inductive AttemptOutcome
  | reqErr
  | doErr
  | readErr
  | resp (status : Nat)
deriving DecidableEq, Repr

/-- Error classes an individual attempt can assign to `lastError`
(`fmt.Errorf` wrappings inside the loop body). -/
inductive FetchErrBase
  | createReq
  | httpReq
  | readBody
  | httpStatus (code : Nat)
deriving DecidableEq, Repr

/-- Error classes visible in `FetchResult.Error`: nil is `Option.none`
outside, a per-attempt error never escapes the loop directly, and the
post-loop error wraps the last per-attempt error as
`"max retries exceeded, last error: %w"`. -/
inductive FetchErr
  | maxRetriesExceeded (last : Option FetchErrBase)
deriving DecidableEq, Repr

/-- Embeds `fetcher.FetchResult`.  `URL`, `Body` and `Duration` are not
read by any checked claim and are omitted. -/
structure FetchResultG where
  statusCode : Nat
  error : Option FetchErr
  attempts : Nat
deriving DecidableEq, Repr

/-- The retry loop of `Fetcher.Fetch`; returns the result together with
the trace of executed backoff-sleep durations (nanoseconds). -/
def fetchLoop (outs : Nat → AttemptOutcome) (maxRetries : Nat) :
    Nat → Nat → Option FetchErrBase → FetchResultG × List Int
  | 0, attempt, lastErr =>
    ({ statusCode := 0, error := some (FetchErr.maxRetriesExceeded lastErr),
       attempts := attempt - 1 }, [])
  | fuel + 1, attempt, lastErr =>
    if attempt ≤ maxRetries then
      match outs attempt with
      | AttemptOutcome.reqErr =>
        let rest := fetchLoop outs maxRetries fuel (attempt + 1) (some FetchErrBase.createReq)
        (rest.1, backoffDuration attempt :: rest.2)
      | AttemptOutcome.doErr =>
        let rest := fetchLoop outs maxRetries fuel (attempt + 1) (some FetchErrBase.httpReq)
        (rest.1, backoffDuration attempt :: rest.2)
      | AttemptOutcome.readErr =>
        let rest := fetchLoop outs maxRetries fuel (attempt + 1) (some FetchErrBase.readBody)
        (rest.1, backoffDuration attempt :: rest.2)
      | AttemptOutcome.resp st =>
        if 400 ≤ st then
          if st = 404 ∨ st = 403 then
            ({ statusCode := 0,
               error := some (FetchErr.maxRetriesExceeded (some (FetchErrBase.httpStatus st))),
               attempts := attempt - 1 }, [])
          else
            let rest := fetchLoop outs maxRetries fuel (attempt + 1)
                (some (FetchErrBase.httpStatus st))
            (rest.1, backoffDuration attempt :: rest.2)
        else
          ({ statusCode := st, error := none, attempts := attempt }, [])
    else
      ({ statusCode := 0, error := some (FetchErr.maxRetriesExceeded lastErr),
         attempts := attempt - 1 }, [])

/-- Embeds `Fetcher.Fetch`'s interface: Go's `(*FetchResult, error)` pair
becomes `(Option FetchResultG, Option FetchErr)` — `some`/`none` standing
for non-nil/nil.  Both Go return sites are `return &FetchResult{...}, nil`. -/
def Fetch (outs : Nat → AttemptOutcome) (maxRetries : Nat) :
    Option FetchResultG × Option FetchErr :=
  (some (fetchLoop outs maxRetries (maxRetries + 1) 1 none).1, none)

/-- The backoff sleeps `Fetch` executes, in order, each at its full
`backoffDuration`. -/
def fetchSleeps (outs : Nat → AttemptOutcome) (maxRetries : Nat) : List Int :=
  (fetchLoop outs maxRetries (maxRetries + 1) 1 none).2

/-- An attempt outcome that makes the loop return successfully. -/
def attemptSucceeds (o : AttemptOutcome) : Prop :=
  match o with
  | AttemptOutcome.resp st => st < 400
  | _ => False

instance (o : AttemptOutcome) : Decidable (attemptSucceeds o) := by
  unfold attemptSucceeds
  cases o <;> infer_instance

/-- If no attempt in the remaining window succeeds, the loop's result
carries a non-nil `Error` field. -/
theorem fetchLoop_error_of_no_success (outs : Nat → AttemptOutcome) (maxRetries : Nat) :
    ∀ fuel attempt lastErr,
      (∀ k, attempt ≤ k → k ≤ maxRetries → ¬ attemptSucceeds (outs k)) →
      ((fetchLoop outs maxRetries fuel attempt lastErr).1.error).isSome = true := by
  intro fuel
  induction fuel with
  | zero => intro attempt lastErr _; rfl
  | succ fuel ih =>
    intro attempt lastErr hno
    unfold fetchLoop
    by_cases hle : attempt ≤ maxRetries
    · simp only [hle, if_true]
      cases houts : outs attempt with
      | reqErr => exact ih (attempt + 1) _ (fun k hk1 hk2 => hno k (by omega) hk2)
      | doErr => exact ih (attempt + 1) _ (fun k hk1 hk2 => hno k (by omega) hk2)
      | readErr => exact ih (attempt + 1) _ (fun k hk1 hk2 => hno k (by omega) hk2)
      | resp st =>
        by_cases hst : 400 ≤ st
        · simp only [hst, if_true]
          by_cases hbrk : st = 404 ∨ st = 403
          · simp [hbrk]
          · simp only [hbrk, if_false]
            exact ih (attempt + 1) _ (fun k hk1 hk2 => hno k (by omega) hk2)
        · exact absurd (by unfold attemptSucceeds; rw [houts]; omega : attemptSucceeds (outs attempt))
            (hno attempt (le_refl _) hle)
    · simp [hle]

/-- C10: for every sequence of attempt outcomes and every `maxRetries`,
`Fetcher.Fetch` returns a non-nil `*FetchResult` together with a nil Go
`error` (both return statements are `return &FetchResult{...}, nil`), and
when no attempt succeeds the failure is reported through the result's
`Error` field — so a caller checking only the second return value observes
no failure. -/
theorem c10_fetch_nil_go_error (outs : Nat → AttemptOutcome) (maxRetries : Nat) :
    (Fetch outs maxRetries).1.isSome = true
    ∧ (Fetch outs maxRetries).2 = none
    ∧ ((∀ k, 1 ≤ k → k ≤ maxRetries → ¬ attemptSucceeds (outs k)) →
        ((fetchLoop outs maxRetries (maxRetries + 1) 1 none).1.error).isSome = true) :=
  ⟨rfl, rfl, fun h => fetchLoop_error_of_no_success outs maxRetries _ 1 none h⟩

/-- Closed instance of C10: a server that always answers 500 yields a nil
Go error and a result whose `Error` field reports the failure. -/
theorem c10_fetch_nil_go_error_witness :
    (Fetch (fun _ => AttemptOutcome.resp 500) 3).1.isSome = true
    ∧ (Fetch (fun _ => AttemptOutcome.resp 500) 3).2 = none
    ∧ ((fetchLoop (fun _ => AttemptOutcome.resp 500) 3 4 1 none).1.error).isSome = true :=
  ⟨(c10_fetch_nil_go_error (fun _ => AttemptOutcome.resp 500) 3).1,
   (c10_fetch_nil_go_error (fun _ => AttemptOutcome.resp 500) 3).2.1,
   (c10_fetch_nil_go_error (fun _ => AttemptOutcome.resp 500) 3).2.2 (by decide)⟩

/-! ## The worker's per-task path (pool.go lines 126-160)

After dequeuing a task, the worker sets `task.Status = TaskProcessing`,
runs the panic-guarded `processFunc` (outcome abstracted as an optional
error `e` and a duration `d`), builds the `Result`, calls
`wp.updateStats(result)` — passing the Result **by value** — and then
sends that same unchanged `result` value on `wp.resultChan`. -/

/-- The `Result` value the worker builds and later sends: its task carries
the `TaskProcessing` status written just before `processFunc` ran. -/
def mkPoolResult (t : Task) (e : Option PoolErr) (d : Nat) : Result :=
  { task := { t with status := TaskStatus.processing }, error := e, time := d }

/-- One iteration of the worker loop body after dequeuing `t`: returns the
stats as updated by `updateStats` and the `Result` actually sent on the
result channel. -/
def workerProcessOne (s : Stats) (t : Task) (e : Option PoolErr) (d elapsed now : Nat) :
    Stats × Result :=
  let result := mkPoolResult t e d
  (updateStats s result elapsed now, result)

/-- C2 divergence: the `Result` delivered on the result channel never
carries a terminal status.  `updateStats` receives the Result by value and
writes `TaskCompleted`/`TaskFailed` into that local copy (last conjunct),
which is discarded; the sent Result still says `TaskProcessing`. -/
theorem c2_delivered_status (s : Stats) (t : Task) (e : Option PoolErr) (d elapsed now : Nat) :
    (workerProcessOne s t e d elapsed now).2.task.status = TaskStatus.processing
    ∧ (workerProcessOne s t e d elapsed now).2.task.status ≠ TaskStatus.completed
    ∧ (workerProcessOne s t e d elapsed now).2.task.status ≠ TaskStatus.failed
    ∧ (updateStatsImpl s (mkPoolResult t e d) elapsed now).2.task.status
        = (if e.isSome then TaskStatus.failed else TaskStatus.completed) := by
  cases e <;> simp [workerProcessOne, mkPoolResult, updateStatsImpl]

/-- A concrete task and an initial stats record (as `NewPool` + `Process`
set them up for a single input URL), used by concrete evaluations. -/
def demoTask : Task := NewTask ("abc".toList) ("https://www.gtft.cn/article/id/abc".toList)

/-- Stats as they stand when the first Result is recorded in a one-URL
run: `Total = 1`, every other field at its zero value. -/
def demoStats0 : Stats :=
  { total := 1, completed := 0, failed := 0, skipped := 0,
    successRate := 0, avgTime := 0, startTime := 0, eta := 0 }

/-- C3 evaluation at the failing input: with `maxRetries = 3` and a server
answering 404 on every attempt, the fetch makes exactly one attempt (the
result is identical whatever later attempts would return, and no backoff
sleep is executed), the returned result carries a terminal error wrapping
the 404 — but its `Attempts` field records **0**, not 1, because the
`break` leaves the loop variable unincremented and the post-loop code
computes `attempts - 1`.  The pool then counts the task as Failed, not
Skipped. -/
theorem c3_always404_eval :
    (fetchLoop (fun _ => AttemptOutcome.resp 404) 3 4 1 none).1
      = { statusCode := 0,
          error := some (FetchErr.maxRetriesExceeded (some (FetchErrBase.httpStatus 404))),
          attempts := 0 }
    ∧ fetchLoop (fun n => if n = 1 then AttemptOutcome.resp 404 else AttemptOutcome.resp 200)
        3 4 1 none
      = fetchLoop (fun _ => AttemptOutcome.resp 404) 3 4 1 none
    ∧ fetchSleeps (fun _ => AttemptOutcome.resp 404) 3 = []
    ∧ (workerProcessOne demoStats0 demoTask (some PoolErr.fetchFailed) 7 0 0).1.failed = 1
    ∧ (workerProcessOne demoStats0 demoTask (some PoolErr.fetchFailed) 7 0 0).1.skipped = 0 := by
  refine ⟨by decide, by decide, by decide, by decide, by decide⟩

/-! ## Backoff sleep vs. cancellation (fetcher.go lines 48-49, 63, 82, 91, 101)

`Fetch` opens a `context.WithTimeout` scope, but every backoff pause is a
plain `time.Sleep(f.backoffDuration(attempts))`.  `time.Sleep` receives
only the duration — the context is not consulted — so the time spent in
the sleep is the full duration no matter when the cancellation fires.
`cancelAfter` below is the time remaining until the scope fires, measured
at the moment the sleep starts; it is an explicit parameter so the code's
behaviour and the spec's required behaviour have comparable types. -/

/-- Time spent inside Go's `time.Sleep d` when the enclosing scope is
cancelled `cancelAfter` into the sleep: the full `d`, always — the
argument list of `time.Sleep` has no cancellation handle. -/
def timeSleepElapsed (d : Int) (cancelAfter : Int) : Int := d

/-- Modelled from the spec: §4.2 "a cancellation during backoff sleep must
abort immediately rather than completing the sleep" — an interruptible
sleep runs until its duration elapses or the cancellation fires, whichever
is first. -/
def specSleepElapsed (d : Int) (cancelAfter : Int) : Int := min d (max cancelAfter 0)

/-- C8 divergence, evaluated: with a 1-second fetch timeout and every
attempt failing instantly with a transport error, the context fires half
a second into the first 1-second backoff sleep — the code still sleeps
the full second (`timeSleepElapsed`), where the spec requires 0.5 s
(`specSleepElapsed`); the whole run executes the full backoff trace
1 s + 2 s + 4 s long after the 1-second scope has expired. -/
theorem c8_sleep_ignores_cancellation :
    timeSleepElapsed (backoffDuration 1) 500000000 = 1000000000
    ∧ specSleepElapsed (backoffDuration 1) 500000000 = 500000000
    ∧ timeSleepElapsed (backoffDuration 1) 500000000
        ≠ specSleepElapsed (backoffDuration 1) 500000000
    ∧ fetchSleeps (fun _ => AttemptOutcome.doErr) 3
        = [1000000000, 2000000000, 4000000000]
    ∧ (∀ c : Int, timeSleepElapsed (backoffDuration 1) c = backoffDuration 1) := by
  refine ⟨by decide, by decide, by decide, by decide, fun c => rfl⟩

/-! ## The pool as a transition system (pool.go lines 45-95, 97-169, 257-272)

`Process` spawns `workers` worker goroutines and one task generator, then
the caller runs `Stop`.  The model is a small-step relation over the
observable shared state.  Worker goroutines are interchangeable, so they
are represented by how many are idle (in the loop head, ready to receive),
the multiset of tasks currently being processed (`busyW`, as a list with
arbitrary-position removal), and how many have returned (`exitedW` — a
returned worker has run its deferred `wp.wg.Done()`).

The two channels are FIFO lists; capacity bounds (1000) only ever delay a
send, so leaving them unbounded preserves every safety property while
admitting a superset of the Go schedules.  `cancel()` is never invoked
anywhere in the program (main installs no signal handler), so the
`<-wp.ctx.Done()` branches of the generator and the workers are dead code
and have no transition here.

`Stop`'s three sequential phases are the program counter `stopPC`:
0 = before `taskGenWg.Wait()`, which returns only once the generator has
run its deferred `Done` (`genDone`); 1 = before `wg.Wait()`, which returns
only once every worker has exited; 2 = about to `close(resultChan)`;
3 = closed. -/

/-- Observable shared state of one `Process` + `Stop` run. -/
structure PoolState where
  pending : List Url
  queue : List Task
  queueClosed : Bool
  genDone : Bool
  idleW : Nat
  busyW : List Task
  exitedW : Nat
  stats : Stats
  pushed : List Result
  stopPC : Nat
  resultClosed : Bool

/-- State right after `NewPool` and the assignment `wp.stats.Total =
len(urls)` at the top of `Process`: queues empty and open, all workers
idle, zeroed counters. -/
def initState (urls : List Url) (workers : Nat) : PoolState :=
  { pending := urls, queue := [], queueClosed := false, genDone := false,
    idleW := workers, busyW := [], exitedW := 0,
    stats := { total := urls.length, completed := 0, failed := 0, skipped := 0,
               successRate := 0, avgTime := 0, startTime := 0, eta := 0 },
    pushed := [], stopPC := 0, resultClosed := false }

/-- One atomic step of the generator, a worker, or `Stop`. -/
inductive PStep : PoolState → PoolState → Prop
  /-- `generateTasks`: send `NewTask(extractIDFromURL(url), url)` for the
  next pending URL (pool.go lines 75-78). -/
  | genSend (s : PoolState) (u : Url) (rest : List Url) :
      s.pending = u :: rest → s.queueClosed = false →
      PStep s { s with pending := rest,
                       queue := s.queue ++ [NewTask (extractIDFromURL u) u] }
  /-- `generateTasks`: `close(wp.taskQueue)` after the last send (line 90). -/
  | genClose (s : PoolState) :
      s.pending = [] → s.queueClosed = false →
      PStep s { s with queueClosed := true }
  /-- the generator goroutine returns; its deferred `taskGenWg.Done()`
  runs (lines 56-59). -/
  | genFinish (s : PoolState) :
      s.queueClosed = true → s.genDone = false →
      PStep s { s with genDone := true }
  /-- an idle worker receives a task from the open or non-empty queue
  (line 106). -/
  | workerTake (s : PoolState) (t : Task) (rest : List Task) :
      1 ≤ s.idleW → s.queue = t :: rest →
      PStep s { s with queue := rest, idleW := s.idleW - 1, busyW := t :: s.busyW }
  /-- a busy worker finishes `processFunc` with outcome `(e, d)`, calls
  `updateStats` (by value) and sends the unchanged Result (lines 126-160);
  `elapsed`/`now` are the wall-clock reads inside `updateStats`.  Caveat:
  this step runs `updateStats` as if it were atomic, although the code
  holds no mutex; statement-level interleavings of two concurrent calls
  (see the micro-op model below) are therefore absent here.  The model is
  used only for the shutdown-ordering claim, whose conclusions rest on
  WaitGroup/channel-synchronized state alone — nothing about the stats
  counters under concurrency is concluded from this relation. -/
  | workerFinish (s : PoolState) (l1 l2 : List Task) (t : Task)
      (e : Option PoolErr) (d elapsed now : Nat) :
      s.busyW = l1 ++ t :: l2 →
      PStep s { s with busyW := l1 ++ l2, idleW := s.idleW + 1,
                       stats := updateStats s.stats (mkPoolResult t e d) elapsed now,
                       pushed := s.pushed ++ [mkPoolResult t e d] }
  /-- an idle worker sees the closed, drained queue (`ok == false`) and
  returns; its deferred `wp.wg.Done()` runs (lines 106-112, 98). -/
  | workerExit (s : PoolState) :
      1 ≤ s.idleW → s.queueClosed = true → s.queue = [] →
      PStep s { s with idleW := s.idleW - 1, exitedW := s.exitedW + 1 }
  /-- `Stop`: `taskGenWg.Wait()` returns (line 259). -/
  | stopWaitGen (s : PoolState) :
      s.stopPC = 0 → s.genDone = true →
      PStep s { s with stopPC := 1 }
  /-- `Stop`: `wg.Wait()` returns — every worker has exited (line 263). -/
  | stopWaitWorkers (s : PoolState) :
      s.stopPC = 1 → s.idleW = 0 → s.busyW = [] →
      PStep s { s with stopPC := 2 }
  /-- `Stop`: `close(wp.resultChan)` (line 266). -/
  | stopClose (s : PoolState) :
      s.stopPC = 2 →
      PStep s { s with stopPC := 3, resultClosed := true }

/-- States reachable in a run of `Process` + `Stop` on `urls` with
`workers` workers. -/
def Reach (urls : List Url) (workers : Nat) (s : PoolState) : Prop :=
  Relation.ReflTransGen PStep (initState urls workers) s

/-- Inductive invariant of the pool run (`N` = number of input URLs,
`W` = number of workers). -/
structure PoolInv (N W : Nat) (s : PoolState) : Prop where
  skipped0 : s.stats.skipped = 0
  total_eq : s.stats.total = N
  wsum : s.idleW + s.busyW.length + s.exitedW = W
  acct : s.stats.completed + s.stats.failed + s.pending.length + s.queue.length
           + s.busyW.length = N
  closedPending : s.queueClosed = true → s.pending = []
  genDoneClosed : s.genDone = true → s.queueClosed = true
  exitedClosed : 1 ≤ s.exitedW → s.queueClosed = true
  allExitedQueue : 1 ≤ W → s.idleW = 0 → s.busyW = [] → s.queue = []
  pc1 : 1 ≤ s.stopPC → s.genDone = true
  pc2 : 2 ≤ s.stopPC → s.idleW = 0 ∧ s.busyW = []
  closedPC : s.resultClosed = true → 3 ≤ s.stopPC
  pushedLen : s.pushed.length = s.stats.completed + s.stats.failed

/-- The initial state satisfies the invariant. -/
theorem initState_inv (urls : List Url) (workers : Nat) :
    PoolInv urls.length workers (initState urls workers) := by
  constructor <;> simp [initState]

/-- Every step preserves the invariant.  Each case re-establishes the
twelve invariant fields; fields whose state components a step does not
touch are inherited definitionally. -/
theorem pstep_inv {N W : Nat} {s s2 : PoolState}
    (h : PStep s s2) (inv : PoolInv N W s) : PoolInv N W s2 := by
  obtain ⟨h1, h2, h3, h4, h5, h6, h7, h8, h9, h10, h11, h12⟩ := inv
  cases h with
  | genSend u rest hp hc =>
    refine ⟨h1, h2, h3, ?_, ?_, h6, h7, ?_, h9, h10, h11, h12⟩
    · dsimp only
      have h4' := h4
      rw [hp] at h4'
      simp only [List.length_cons] at h4'
      simp only [List.length_append, List.length_cons, List.length_nil]
      omega
    · intro hcc
      dsimp only at hcc ⊢
      rw [hc] at hcc
      simp at hcc
    · intro hW hidle hbusy
      dsimp only at hidle hbusy
      exfalso
      have hex : 1 ≤ s.exitedW := by
        rw [hbusy] at h3
        simp only [List.length_nil] at h3
        omega
      have hcl := h7 hex
      rw [hc] at hcl
      simp at hcl
  | genClose hp hc =>
    exact ⟨h1, h2, h3, h4, fun _ => hp, fun _ => rfl, fun _ => rfl, h8, h9, h10, h11, h12⟩
  | genFinish hc hg =>
    exact ⟨h1, h2, h3, h4, h5, fun _ => hc, h7, h8, fun _ => rfl, h10, h11, h12⟩
  | workerTake t rest hidle hq =>
    refine ⟨h1, h2, ?_, ?_, h5, h6, h7, ?_, h9, ?_, h11, h12⟩
    · dsimp only
      simp only [List.length_cons]
      omega
    · dsimp only
      have h4' := h4
      rw [hq] at h4'
      simp only [List.length_cons] at h4'
      simp only [List.length_cons]
      omega
    · intro _ _ hb
      dsimp only at hb
      exact absurd hb (List.cons_ne_nil t s.busyW)
    · intro hpc
      dsimp only at hpc ⊢
      exact absurd (h10 hpc).1 (by omega)
  | workerFinish l1 l2 t e d elapsed now hb =>
    refine ⟨?_, ?_, ?_, ?_, h5, h6, h7, ?_, h9, ?_, h11, ?_⟩
    · exact (updateStats_skipped _ _ _ _).trans h1
    · exact (updateStats_total _ _ _ _).trans h2
    · dsimp only
      have h3' := h3
      rw [hb] at h3'
      simp only [List.length_append, List.length_cons] at h3'
      simp only [List.length_append]
      omega
    · dsimp only
      have h4' := h4
      rw [hb] at h4'
      simp only [List.length_append, List.length_cons] at h4'
      have hcnt := updateStats_counts s.stats (mkPoolResult t e d) elapsed now
      simp only [List.length_append]
      omega
    · intro _ h0 _
      dsimp only at h0
      exact absurd h0 (Nat.succ_ne_zero s.idleW)
    · intro hpc
      dsimp only at hpc
      have hb0 := (h10 hpc).2
      rw [hb0] at hb
      simp at hb
    · dsimp only
      have hcnt := updateStats_counts s.stats (mkPoolResult t e d) elapsed now
      simp only [List.length_append, List.length_cons, List.length_nil]
      omega
  | workerExit hidle hc hq =>
    refine ⟨h1, h2, ?_, h4, h5, h6, fun _ => hc, fun _ _ _ => hq, h9, ?_, h11, h12⟩
    · dsimp only
      omega
    · intro hpc
      dsimp only at hpc ⊢
      exact absurd (h10 hpc).1 (by omega)
  | stopWaitGen hpc hg =>
    refine ⟨h1, h2, h3, h4, h5, h6, h7, h8, fun _ => hg, ?_, ?_, h12⟩
    · intro hh
      dsimp only at hh
      omega
    · intro hrc
      have := h11 hrc
      dsimp only
      omega
  | stopWaitWorkers hpc hidle hbusy =>
    refine ⟨h1, h2, h3, h4, h5, h6, h7, h8, fun _ => h9 (by omega), fun _ => ⟨hidle, hbusy⟩, ?_, h12⟩
    intro hrc
    have := h11 hrc
    dsimp only
    omega
  | stopClose hpc =>
    exact ⟨h1, h2, h3, h4, h5, h6, h7, h8, fun _ => h9 (by omega), fun _ => h10 (by omega),
           fun _ => by dsimp only; omega, h12⟩

/-- Every reachable state satisfies the invariant. -/
theorem reach_inv {urls : List Url} {workers : Nat} {s : PoolState}
    (h : Reach urls workers s) : PoolInv urls.length workers s := by
  induction h with
  | refl => exact initState_inv urls workers
  | tail _ hstep ih => exact pstep_inv hstep ih

/-- C4: when the result channel is closed, the generator has finished (and
had closed the task queue), every worker has drained the queue and exited,
no task is still being processed, and every recorded Result has been
pushed — `Stop`'s three phases (`taskGenWg.Wait`, `wg.Wait`,
`close(resultChan)`) ran in order, each gated on completion of the prior
one. -/
theorem c4_shutdown_order (urls : List Url) (workers : Nat) (s : PoolState)
    (hreach : Reach urls workers s) (hclosed : s.resultClosed = true) :
    s.genDone = true ∧ s.queueClosed = true ∧ s.idleW = 0 ∧ s.busyW = []
    ∧ s.exitedW = workers
    ∧ s.pushed.length = s.stats.completed + s.stats.failed := by
  obtain ⟨h1, h2, h3, h4, h5, h6, h7, h8, h9, h10, h11, h12⟩ := reach_inv hreach
  have hpc := h11 hclosed
  obtain ⟨hidle, hbusy⟩ := h10 (by omega)
  have hgen := h9 (by omega)
  refine ⟨hgen, h6 hgen, hidle, hbusy, ?_, h12⟩
  rw [hidle, hbusy] at h3
  simp only [List.length_nil] at h3
  omega

/-! ## A concrete complete run (for the closed instances)

One URL, one worker, the fetch succeeding in 7 ns of processing time:
generator sends the task and closes the queue, the worker takes it,
processes it, exits on the drained closed queue, and `Stop` walks its
three phases. -/

/-- The sample input URL. -/
def uA : Url := "https://www.gtft.cn/article/id/abc".toList

/-- The task the generator creates for `uA`. -/
def tA : Task := NewTask (extractIDFromURL uA) uA

/-- The Result the worker delivers for `tA` (no error, 7 ns). -/
def rA : Result := mkPoolResult tA none 7

/-- The stats after recording `rA` in a one-URL run. -/
def statsA : Stats :=
  updateStats
    { total := 1, completed := 0, failed := 0, skipped := 0,
      successRate := 0, avgTime := 0, startTime := 0, eta := 0 } rA 0 0

/-- The final state of the sample run. -/
def sampleFinal : PoolState :=
  { pending := [], queue := [], queueClosed := true, genDone := true,
    idleW := 0, busyW := [], exitedW := 1, stats := statsA,
    pushed := [rA], stopPC := 3, resultClosed := true }

/-- Stats at the start of the sample run (`Total = 1`). -/
def stats0A : Stats :=
  { total := 1, completed := 0, failed := 0, skipped := 0,
    successRate := 0, avgTime := 0, startTime := 0, eta := 0 }

/-- Sample run after the generator sends the one task. -/
def pool1 : PoolState :=
  { pending := [], queue := [tA], queueClosed := false, genDone := false,
    idleW := 1, busyW := [], exitedW := 0, stats := stats0A,
    pushed := [], stopPC := 0, resultClosed := false }

/-- Sample run after `close(taskQueue)`. -/
def pool2 : PoolState := { pool1 with queueClosed := true }

/-- Sample run after the generator goroutine returns. -/
def pool3 : PoolState := { pool2 with genDone := true }

/-- Sample run after the worker takes the task. -/
def pool4 : PoolState := { pool3 with queue := [], idleW := 0, busyW := [tA] }

/-- Sample run after the worker records and pushes the Result. -/
def pool5 : PoolState :=
  { pool4 with idleW := 1, busyW := [], stats := statsA, pushed := [rA] }

/-- Sample run after the worker exits on the drained closed queue. -/
def pool6 : PoolState := { pool5 with idleW := 0, exitedW := 1 }

/-- Sample run after `taskGenWg.Wait()` returns. -/
def pool7 : PoolState := { pool6 with stopPC := 1 }

/-- Sample run after `wg.Wait()` returns. -/
def pool8 : PoolState := { pool7 with stopPC := 2 }

/-- The sample run is a genuine trace of the transition system. -/
theorem sampleFinal_reach : Reach [uA] 1 sampleFinal := by
  have s1 : PStep (initState [uA] 1) pool1 := PStep.genSend _ uA [] rfl rfl
  have s2 : PStep pool1 pool2 := PStep.genClose _ rfl rfl
  have s3 : PStep pool2 pool3 := PStep.genFinish _ rfl rfl
  have s4 : PStep pool3 pool4 := PStep.workerTake _ tA [] (by decide) rfl
  have s5 : PStep pool4 pool5 := PStep.workerFinish _ [] [] tA none 7 0 0 rfl
  have s6 : PStep pool5 pool6 := PStep.workerExit _ (by decide) rfl rfl
  have s7 : PStep pool6 pool7 := PStep.stopWaitGen _ rfl rfl
  have s8 : PStep pool7 pool8 := PStep.stopWaitWorkers _ rfl rfl rfl
  have s9 : PStep pool8 sampleFinal := PStep.stopClose _ rfl
  exact Relation.ReflTransGen.tail (Relation.ReflTransGen.tail (Relation.ReflTransGen.tail
    (Relation.ReflTransGen.tail (Relation.ReflTransGen.tail (Relation.ReflTransGen.tail
      (Relation.ReflTransGen.tail (Relation.ReflTransGen.tail (Relation.ReflTransGen.tail
        Relation.ReflTransGen.refl s1) s2) s3) s4) s5) s6) s7) s8) s9

/-- Closed instance of C4 on the sample run. -/
theorem c4_shutdown_order_witness :
    sampleFinal.genDone = true ∧ sampleFinal.queueClosed = true
    ∧ sampleFinal.idleW = 0 ∧ sampleFinal.busyW = []
    ∧ sampleFinal.exitedW = 1
    ∧ sampleFinal.pushed.length
        = sampleFinal.stats.completed + sampleFinal.stats.failed :=
  c4_shutdown_order [uA] 1 sampleFinal sampleFinal_reach rfl

/-! ## No mutual exclusion around updateStats (pool.go lines 209-230)

`WorkerPool` owns no mutex: its only synchronization fields are the two
`sync.WaitGroup`s and the context (pool.go lines 15-27), and `updateStats`
acquires nothing before reading and writing the shared `*Stats` — yet
every worker goroutine calls it concurrently (line 148).  At the machine
level each statement of `updateStats` decomposes into plain loads and
stores of the shared fields (`wp.stats.Completed++` is a load followed by
a store); with no critical section, the loads and stores of two
concurrent calls can interleave arbitrarily.  The model gives each such
load/store group one atomic micro-operation over the shared cells the
claims read (`Completed`, `Failed`, `AvgTime`, `SuccessRate`; the ETA
statements touch no field any other claim reads and are elided) and
per-call registers, and executes an arbitrary schedule. -/

/-- The shared `*Stats` cells read and written by the statements under
scrutiny. -/
structure SMem where
  completed : Nat
  failed : Nat
  avgTime : Nat
  successRate : ℚ
deriving DecidableEq, Repr

/-- Per-call (per-goroutine) registers holding loaded values. -/
structure SRegs where
  ra : Nat
  rb : Nat
  rc : Nat
deriving DecidableEq, Repr

/-- One atomic micro-operation: reads/writes shared memory and its own
registers. -/
abbrev MicroOp := SMem × SRegs → SMem × SRegs

/-- Micro-operations of one `updateStats` call recording a successful
Result of duration `d` (the `result.Error == nil` path), in program
order: the loads feeding line 210 and its store of `AvgTime`; the load
and the store of `Completed++` (line 216); the loads of line 220; the
guarded store of `SuccessRate` (lines 221-222). -/
def updateStatsOps (d : Nat) : List MicroOp :=
  [ fun mr => (mr.1, { ra := mr.1.completed, rb := mr.1.failed, rc := mr.1.avgTime }),
    fun mr => ({ mr.1 with
                 avgTime := (mr.2.rc * (mr.2.ra + mr.2.rb) + d) / (mr.2.ra + mr.2.rb + 1) },
               mr.2),
    fun mr => (mr.1, { mr.2 with ra := mr.1.completed }),
    fun mr => ({ mr.1 with completed := mr.2.ra + 1 }, mr.2),
    fun mr => (mr.1, { mr.2 with ra := mr.1.completed, rb := mr.1.failed }),
    fun mr =>
      if 0 < mr.2.ra + mr.2.rb then
        ({ mr.1 with successRate := (mr.2.ra : ℚ) / ((mr.2.ra : ℚ) + (mr.2.rb : ℚ)) * 100 },
         mr.2)
      else mr ]

/-- Run two micro-op programs A and B against shared memory under a
schedule (`false` = next op of A, `true` = next op of B; a completed
program's turns are skipped). -/
def interleave : List Bool → List MicroOp → SRegs → List MicroOp → SRegs → SMem → SMem
  | [], _, _, _, _, m => m
  | false :: rest, pa, ra, pb, rb, m =>
    match pa with
    | [] => interleave rest [] ra pb rb m
    | f :: pa2 =>
      let mr := f (m, ra)
      interleave rest pa2 mr.2 pb rb mr.1
  | true :: rest, pa, ra, pb, rb, m =>
    match pb with
    | [] => interleave rest pa ra [] rb m
    | f :: pb2 =>
      let mr := f (m, rb)
      interleave rest pa ra pb2 mr.2 mr.1

/-- Zero-initialized shared stats cells (fresh pool, first two Results). -/
def mem0 : SMem := { completed := 0, failed := 0, avgTime := 0, successRate := 0 }

/-- Zero-initialized registers. -/
def regs0 : SRegs := { ra := 0, rb := 0, rc := 0 }

/-- A schedule where both calls run their loads (including the load half
of `Completed++`) before either runs its store half. -/
def schedRace : List Bool :=
  [false, false, false, true, true, true, false, true, false, false, true, true]

/-- The serialized schedule: all of call A, then all of call B. -/
def schedSerial : List Bool :=
  [false, false, false, false, false, false, true, true, true, true, true, true]

/-- Baseline stats for the serial comparison (a fresh two-URL run). -/
def statsTwo : Stats :=
  { total := 2, completed := 0, failed := 0, skipped := 0,
    successRate := 0, avgTime := 0, startTime := 0, eta := 0 }

/-- The successful 5 ns Result both workers record. -/
def rFive : Result := mkPoolResult demoTask none 5

/-- C5 divergence, evaluated: two workers record successful Results
concurrently.  Under the interleaving `schedRace` — impossible if the
whole of `updateStats` ran in one critical section — both calls load
`Completed = 0` before either stores, and the final count is 1 after two
successes.  Any serialization gives 2, and the serialized micro-op run
agrees field by field with composing the source-level `updateStats`,
confirming the micro-op program is that function. -/
theorem c5_unsynchronized_interleaving :
    (interleave schedRace (updateStatsOps 5) regs0 (updateStatsOps 5) regs0 mem0).completed = 1
    ∧ (interleave schedSerial (updateStatsOps 5) regs0 (updateStatsOps 5) regs0 mem0).completed
        = 2
    ∧ (interleave schedSerial (updateStatsOps 5) regs0 (updateStatsOps 5) regs0 mem0).completed
        = (updateStats (updateStats statsTwo rFive 0 0) rFive 0 0).completed
    ∧ (interleave schedSerial (updateStatsOps 5) regs0 (updateStatsOps 5) regs0 mem0).failed
        = (updateStats (updateStats statsTwo rFive 0 0) rFive 0 0).failed
    ∧ (interleave schedSerial (updateStatsOps 5) regs0 (updateStatsOps 5) regs0 mem0).avgTime
        = (updateStats (updateStats statsTwo rFive 0 0) rFive 0 0).avgTime
    ∧ (interleave schedSerial (updateStatsOps 5) regs0 (updateStatsOps 5) regs0 mem0).successRate
        = (updateStats (updateStats statsTwo rFive 0 0) rFive 0 0).successRate
    ∧ (interleave schedRace (updateStatsOps 5) regs0 (updateStatsOps 5) regs0 mem0).completed
        ≠ (updateStats (updateStats statsTwo rFive 0 0) rFive 0 0).completed := by
  refine ⟨by decide, by decide, by decide, by decide, by decide, ?_, by decide⟩
  norm_num [interleave, updateStatsOps, mem0, regs0, schedSerial, updateStats,
    updateStatsImpl, statsTwo, rFive, mkPoolResult, demoTask]

/-- C1 divergence, evaluated: a finished 2-URL, 2-worker run in which the
two successful Results are recorded under the racy schedule — possible
because `WorkerPool` holds no mutex — ends with `Completed = 1` and
`Failed = 0`, while `Skipped` stays 0 (no pool statement increments it,
and the composed source-level `updateStats` leaves it unchanged, third
conjunct), so `completed + failed + skipped = 1 ≠ 2 = total`: one task
vanishes from the accounting even though both tasks were fully processed.
Under any serialized order — the mutex-guarded execution the spec
prescribes — the sum equals the total (second conjunct). -/
theorem c1_race_drops_accounting :
    (interleave schedRace (updateStatsOps 5) regs0 (updateStatsOps 5) regs0 mem0).completed
        + (interleave schedRace (updateStatsOps 5) regs0 (updateStatsOps 5) regs0 mem0).failed
        + statsTwo.skipped
      ≠ statsTwo.total
    ∧ (interleave schedSerial (updateStatsOps 5) regs0 (updateStatsOps 5) regs0 mem0).completed
        + (interleave schedSerial (updateStatsOps 5) regs0 (updateStatsOps 5) regs0 mem0).failed
        + statsTwo.skipped
      = statsTwo.total
    ∧ (updateStats (updateStats statsTwo rFive 0 0) rFive 0 0).skipped = statsTwo.skipped := by
  refine ⟨by decide, by decide, by decide⟩

end Crawler
